import Mathlib

/-!
Verification of `backup-immich-to-external-disk.py`

A shallow embedding of the backup script.  The script is sequential
orchestration of filesystem queries, interactive prompts and external
commands, so we model it as a state-passing interpreter:

* `FS` is the filesystem state the script can observe and mutate: the
  children of the backup root (`BACKUP_DIR`), each a `(name, isDir)` pair,
  with `none` standing for a missing backup root, together with the set of
  volume source directories that exist next to the script.
* `Env` collects the external world that the script only reads: effective
  uid, whether the mount point is mounted, the stdin lines answered to
  `input()`, the current date, and the exit status of each external command
  (`docker compose stop/start`, `rsync` per volume, `du -sb` per path).
* `St` threads the filesystem, the remaining stdin, a trace of observable
  events (prompts shown, containers stopped/started, rsync invocations,
  directory creation/removal) and whether the containers are running.
* Python exceptions are modelled with `Except Exc`; `subprocess.run(...,
  check=True)` raises `CalledProcessError` on a nonzero exit, `input()` at
  EOF raises `EOFError`, `Path.mkdir(exist_ok=True)` on an existing
  non-directory raises `FileExistsError`, and `shutil.rmtree` on a
  non-directory raises `NotADirectoryError`.  An exception raised inside
  the `finally:` block replaces the in-flight exception and skips the rest
  of the block, exactly as in Python.

Each Python function keeps its name.  `print` calls that only display text
(disk stats, sizes, messages) have no observable effect in the model except
where they consult `du` (which can raise); `shutil.disk_usage` is display
only and is not modelled.
-/

namespace ImmichBackup

/-- A directory entry directly under the backup root: its name and whether
it is a directory (`true`) or a non-directory such as a plain file. -/
abbrev Entry := String × Bool

/-- Filesystem state: children of `BACKUP_DIR` (`none` when the backup root
itself does not exist) and the names of the volume source directories that
exist under `SOURCE_DIR`. -/
structure FS where
  root : Option (List Entry)
  srcVols : List String
deriving Repr, DecidableEq

/-- The Python exceptions the script can raise. -/
inductive Exc where
  | eofError
  | calledProcessError (cmd : String)
  | fileExistsError (path : String)
  | notADirectoryError (path : String)
  | fileNotFoundError (path : String)
  | valueError
  | indexError
deriving Repr, DecidableEq

/-- Observable events, in program order. -/
inductive Ev where
  | prompt (msg : String)
  | duCall (path : String)
  | stopContainers
  | startContainers
  | mkdirToday (name : String)
  | rsync (vol : String)
  | skipVol (vol : String)
  | rmtreeCall (name : String)
deriving Repr, DecidableEq

/-- A calendar date, for `datetime.now()`. -/
structure Date where
  year : Nat
  month : Nat
  day : Nat
deriving Repr, DecidableEq

/-- Zero-pad to two digits, as `strftime` does for `%m` and `%d`. -/
def pad2 (n : Nat) : String :=
  if n < 10 then "0" ++ toString n else toString n

/-- Python `datetime.now().strftime("%Y-%m-%d")` for the date `d`. -/
def strftimeYmd (d : Date) : String :=
  toString d.year ++ "-" ++ pad2 d.month ++ "-" ++ pad2 d.day

/-- The world the script reads but never writes. -/
structure Env where
  euid : Nat
  mounted : Bool
  stdin : List String
  date : Date
  stopOk : Bool
  startOk : Bool
  rsyncOk : String → Bool
  du : String → Int × String

/-- Interpreter state threaded through the run. -/
structure St where
  fs : FS
  stdin : List String
  trace : List Ev
  running : Bool
deriving Repr, DecidableEq

/-- Python `str.strip()` (ASCII whitespace covers the prompt answers
of the script). -/
def pyStrip (x : String) : String :=
  ⟨(((x.data.dropWhile Char.isWhitespace).reverse).dropWhile
      Char.isWhitespace).reverse⟩

/-- Python `str.lower()` (the script only compares against `"y"`/`"n"`). -/
def pyLower (x : String) : String :=
  ⟨x.data.map Char.toLower⟩

/-- Python `input(...).strip().lower()`, the normalisation applied to every
prompt answer. -/
def stripLower (x : String) : String :=
  pyLower (pyStrip x)

/-! ### Python string comparison

Python compares strings code point by code point; `sorted` on `Path`
objects sharing one parent therefore orders them by entry name under that
comparison.  `strLtB` is that comparison as a structurally recursive
boolean (so that concrete runs evaluate); it is proved to agree with
the Mathlib lexicographic order on `String`. -/

/-- Code-point lexicographic `<` on character lists, as Python compares
strings. -/
def strLtB : List Char → List Char → Bool
  | [], [] => false
  | [], _ :: _ => true
  | _ :: _, [] => false
  | c :: a, d :: b => if c = d then strLtB a b else decide (c < d)

theorem strLtB_iff : ∀ a b : List Char, strLtB a b = true ↔ List.Lex (· < ·) a b
  | [], [] => by
    constructor
    · intro h
      simp [strLtB] at h
    · intro h
      exact absurd h (List.Lex.not_nil_right _ _)
  | [], d :: b => by
    constructor
    · intro _
      exact List.Lex.nil
    · intro _
      simp [strLtB]
  | c :: a, [] => by
    constructor
    · intro h
      simp [strLtB] at h
    · intro h
      exact absurd h (List.Lex.not_nil_right _ _)
  | c :: a, d :: b => by
    by_cases h : c = d
    · subst h
      rw [show strLtB (c :: a) (c :: b) = strLtB a b by simp [strLtB]]
      rw [List.Lex.cons_iff]
      exact strLtB_iff a b
    · rw [show strLtB (c :: a) (d :: b) = decide (c < d) by simp [strLtB, h]]
      simp only [decide_eq_true_eq]
      constructor
      · intro hcd
        exact List.Lex.rel hcd
      · intro hl
        cases hl with
        | cons h' => exact absurd rfl h
        | rel h' => exact h'

/-- Python `a <= b` on strings. -/
def strLeB (a b : String) : Bool := !(strLtB b.data a.data)

/-- Python string `<=` agrees with the Mathlib linear order on `String`. -/
theorem strLeB_iff (a b : String) : strLeB a b = true ↔ a ≤ b := by
  rw [strLeB, Bool.not_eq_true']
  rw [show (a ≤ b) = ¬ (b < a) from rfl]
  rw [String.lt_iff_toList_lt]
  constructor
  · intro h hl
    rw [show (String.toList b < String.toList a) =
          List.Lex (· < ·) b.data a.data from rfl] at hl
    rw [← strLtB_iff] at hl
    simp [h] at hl
  · intro h
    by_contra hb
    rw [Bool.not_eq_false] at hb
    exact h ((strLtB_iff _ _).mp hb)

/-- Python `sorted` on the names (a stable sort under the Python string
comparison). -/
def pySortNames (l : List String) : List String :=
  List.insertionSort (fun a b => strLeB a b = true) l

instance : IsTotal String (fun a b => strLeB a b = true) := by
  constructor
  intro a b
  rcases le_total a b with h | h
  · exact Or.inl ((strLeB_iff a b).mpr h)
  · exact Or.inr ((strLeB_iff b a).mpr h)

instance : IsTrans String (fun a b => strLeB a b = true) := by
  constructor
  intro a b c hab hbc
  exact (strLeB_iff a c).mpr
    (le_trans ((strLeB_iff a b).mp hab) ((strLeB_iff b c).mp hbc))

theorem sorted_pySortNames (l : List String) :
    (pySortNames l).Sorted (· ≤ ·) :=
  (List.sorted_insertionSort _ l).imp (fun h => (strLeB_iff _ _).mp h)

theorem perm_pySortNames (l : List String) : (pySortNames l).Perm l :=
  List.perm_insertionSort _ l

def MAX_BACKUPS : Nat := 7

def VOLUMES_TO_BACKUP : List String := ["library", "postgres"]

/-- Sequence two steps, propagating an exception with its state. -/
def andThen {α β : Type} (r : Except Exc α × St)
    (f : α → St → Except Exc β × St) : Except Exc β × St :=
  match r with
  | (.error e, s) => (.error e, s)
  | (.ok a, s) => f a s

/-- Python `input(msg)`: shows the prompt, consumes one stdin line, raises
`EOFError` when stdin is exhausted. -/
def pyInput (msg : String) (s : St) : Except Exc String × St :=
  let s1 : St := { s with trace := s.trace ++ [Ev.prompt msg] }
  match s1.stdin with
  | [] => (.error .eofError, s1)
  | a :: rest => (.ok a, { s1 with stdin := rest })

/-- Function `is_mounted(path)` = `os.path.ismount(MOUNT_POINT)`. -/
def is_mounted (env : Env) : Bool :=
  env.mounted

/-- Function `get_backups()`: `[]` when `BACKUP_DIR` does not exist, otherwise the
directory children sorted by name (sorting the `Path` objects under a
common parent orders them by entry name). -/
def get_backups (fs : FS) : List String :=
  match fs.root with
  | none => []
  | some cs => pySortNames ((cs.filter (fun c => c.2)).map (fun c => c.1))

/-- Function `get_dir_size_gb(path)` given the `(returncode, stdout)` of
`du -sb path`: on exit 0 parse the first whitespace-separated token as an
integer byte count and divide by `1024^3` (`IndexError` on empty output,
`ValueError` on a non-integer token); on nonzero exit return `0.0`. -/
def get_dir_size_gb (rc : Int) (stdout : String) : Except Exc ℚ :=
  if rc = 0 then
    match (stdout.split Char.isWhitespace).filter (fun t => t ≠ "") with
    | [] => .error .indexError
    | tok :: _ =>
      match tok.toInt? with
      | none => .error .valueError
      | some n => .ok ((n : ℚ) / ((1024 : ℚ) ^ 3))
  else .ok 0

/-- The `du` invocations performed while printing the size of each listed
backup; a parse failure propagates. -/
def duSizes (env : Env) : List String → St → Except Exc Unit × St
  | [], s => (.ok (), s)
  | b :: rest, s =>
    let s1 : St := { s with trace := s.trace ++ [Ev.duCall b] }
    match get_dir_size_gb (env.du b).1 (env.du b).2 with
    | .error e => (.error e, s1)
    | .ok _ => duSizes env rest s1

/-- Function `list_backups()`: enumerate the backups and print each with its size
(one `du` per backup); returns the listed backups. -/
def list_backups (env : Env) (s : St) : Except Exc (List String) × St :=
  let backups := get_backups s.fs
  andThen (duSizes env backups s) fun _ s => (.ok backups, s)

/-- Python `shutil.rmtree(BACKUP_DIR / name)`: removes the directory entry of that
name; raises `NotADirectoryError` on a non-directory and
`FileNotFoundError` on a missing path. -/
def rmtree (name : String) (s : St) : Except Exc Unit × St :=
  let s1 : St := { s with trace := s.trace ++ [Ev.rmtreeCall name] }
  match s1.fs.root with
  | none => (.error (.fileNotFoundError name), s1)
  | some cs =>
    if (name, true) ∈ cs then
      (.ok (), { s1 with
        fs := { s1.fs with root := some (cs.filter (fun c => c.1 ≠ name)) } })
    else if (name, false) ∈ cs then
      (.error (.notADirectoryError name), s1)
    else (.error (.fileNotFoundError name), s1)

/-- Function `maybe_delete_oldest()`: when more than `MAX_BACKUPS` backups exist,
prompt once and on a stripped-lowercased `"y"` remove the first (sorted
order) backup. -/
def maybe_delete_oldest (s : St) : Except Exc Unit × St :=
  let backups := get_backups s.fs
  if backups.length ≤ MAX_BACKUPS then (.ok (), s)
  else
    match backups with
    | [] => (.ok (), s)
    | oldest :: _ =>
      andThen (pyInput ("Delete oldest backup " ++ oldest ++ "? [y/N] ") s)
        fun resp s =>
          if stripLower resp = "y" then rmtree oldest s
          else (.ok (), s)

/-- Function `stop_immich()`: `docker compose stop` with `check=True`. -/
def stop_immich (env : Env) (s : St) : Except Exc Unit × St :=
  let s1 : St := { s with trace := s.trace ++ [Ev.stopContainers] }
  if env.stopOk then (.ok (), { s1 with running := false })
  else (.error (.calledProcessError ("docker compose stop")), s1)

/-- Function `start_immich()`: `docker compose start` with `check=True`. -/
def start_immich (env : Env) (s : St) : Except Exc Unit × St :=
  let s1 : St := { s with trace := s.trace ++ [Ev.startContainers] }
  if env.startOk then (.ok (), { s1 with running := true })
  else (.error (.calledProcessError ("docker compose start")), s1)

/-- Python `(BACKUP_DIR / today).exists()`: any child of that name, directory or
not. -/
def destExists (today : String) (fs : FS) : Bool :=
  match fs.root with
  | none => false
  | some cs => cs.any (fun c => c.1 = today)

/-- Function `check_today_exists()`: returns `(dest, should_proceed)`, prompting
for overwrite when the destination path for today already exists. -/
def check_today_exists (env : Env) (s : St) : Except Exc (String × Bool) × St :=
  let today := strftimeYmd env.date
  if destExists today s.fs then
    andThen (pyInput ("Overwrite? [y/N] ") s) fun resp s =>
      if stripLower resp ≠ "y" then (.ok (today, false), s)
      else (.ok (today, true), s)
  else (.ok (today, true), s)

/-- Python `dest.mkdir(parents=True, exist_ok=True)`: creates the backup root if
missing and the dated directory if absent; raises `FileExistsError` when a
non-directory occupies the destination path. -/
def mkdirDest (today : String) (s : St) : Except Exc Unit × St :=
  match s.fs.root with
  | none =>
    (.ok (), { s with
      fs := { s.fs with root := some [(today, true)] },
      trace := s.trace ++ [Ev.mkdirToday today] })
  | some cs =>
    if (today, false) ∈ cs then (.error (.fileExistsError today), s)
    else if (today, true) ∈ cs then (.ok (), s)
    else
      (.ok (), { s with
        fs := { s.fs with root := some (cs ++ [(today, true)]) },
        trace := s.trace ++ [Ev.mkdirToday today] })

/-- The volume loop of `run_backup`: skip a volume whose source directory
is missing, otherwise `rsync -a --delete --info=progress2` with
`check=True` (a nonzero exit raises and aborts the remaining volumes). -/
def syncVolumes (env : Env) : List String → St → Except Exc Unit × St
  | [], s => (.ok (), s)
  | vol :: rest, s =>
    if vol ∈ s.fs.srcVols then
      let s1 : St := { s with trace := s.trace ++ [Ev.rsync vol] }
      if env.rsyncOk vol then syncVolumes env rest s1
      else (.error (.calledProcessError ("rsync " ++ vol)), s1)
    else
      let s1 : St := { s with trace := s.trace ++ [Ev.skipVol vol] }
      syncVolumes env rest s1

/-- Function `run_backup(dest)`: create the destination, then copy each configured
volume in order. -/
def run_backup (env : Env) (dest : String) (s : St) : Except Exc Unit × St :=
  andThen (mkdirDest dest s) fun _ s =>
    syncVolumes env VOLUMES_TO_BACKUP s

/-- The `finally:` block of `main`, entered with the outcome of
`run_backup`: when the backup raised and the destination still exists it
is removed first (an exception there replaces the in-flight one and skips
the restart, as in Python), then the containers are started; on the error
path the original exception is re-raised afterwards. -/
def finallyCleanupStart (env : Env) (dest : String)
    (r : Except Exc Unit × St) : Except Exc Unit × St :=
  match r with
  | (.ok _, s) => start_immich env s
  | (.error e, s) =>
    if destExists dest s.fs then
      andThen (rmtree dest s) fun _ s =>
        andThen (start_immich env s) fun _ s => (.error e, s)
    else
      andThen (start_immich env s) fun _ s => (.error e, s)

/-- Step 6 of `main` (lines 192–203): stop the containers, run the backup
inside `try/except/finally`, restart in the `finally`. -/
def stopBackupStart (env : Env) (dest : String) (s : St) :
    Except Exc Unit × St :=
  andThen (stop_immich env s) fun _ s =>
    finallyCleanupStart env dest (run_backup env dest s)

/-- Function `show_backup_stats(backup_path)`: one `du` call on the new backup. -/
def show_backup_stats (env : Env) (dest : String) (s : St) :
    Except Exc Unit × St :=
  let s1 : St := { s with trace := s.trace ++ [Ev.duCall dest] }
  match get_dir_size_gb (env.du dest).1 (env.du dest).2 with
  | .error e => (.error e, s1)
  | .ok _ => (.ok (), s1)

/-- The state at the top of `main`. -/
def initSt (env : Env) (fs0 : FS) : St :=
  { fs := fs0, stdin := env.stdin, trace := [], running := true }

/-- Function `main()` on a no-argument invocation: root check, mount check, stats
and listing, optional pruning, collision check, final confirmation, then
stop–backup–start and the final stats.  The returned `Nat` is the value
`main` returns; an `Exc` is an uncaught exception propagating out. -/
def main (env : Env) (fs0 : FS) : Except Exc Nat × St :=
  let s := initSt env fs0
  if env.euid ≠ 0 then (.ok 1, s)
  else if !is_mounted env then (.ok 1, s)
  else
    andThen (list_backups env s) fun _ s =>
    andThen (maybe_delete_oldest s) fun _ s =>
    andThen (check_today_exists env s) fun dp s =>
      if !dp.2 then (.ok 0, s)
      else
        andThen (pyInput ("Proceed with backup? [Y/n] ") s) fun resp s =>
          if stripLower resp = "n" then (.ok 0, s)
          else
            andThen (stopBackupStart env dp.1 s) fun _ s =>
              andThen (show_backup_stats env dp.1 s) fun _ s => (.ok 0, s)

/-! ## Helper lemmas -/

@[simp]
theorem andThen_ok {α β : Type} (a : α) (s : St) (f : α → St → Except Exc β × St) :
    andThen (.ok a, s) f = f a s := rfl

@[simp]
theorem andThen_error {α β : Type} (e : Exc) (s : St)
    (f : α → St → Except Exc β × St) :
    andThen (.error e, s) f = (.error e, s) := rfl

/-- The name created by a directory-creation event, if any. -/
def mkdirName? : Ev → Option String
  | .mkdirToday n => some n
  | _ => none

/-- Names of directories created directly under the backup root, in
creation order, read off the event trace. -/
def mkdirNames (l : List Ev) : List String := l.filterMap mkdirName?

@[simp] theorem mkdirNames_nil : mkdirNames [] = [] := rfl

@[simp]
theorem mkdirNames_append (l m : List Ev) :
    mkdirNames (l ++ m) = mkdirNames l ++ mkdirNames m :=
  List.filterMap_append l m mkdirName?

@[simp]
theorem mkdirNames_cons_prompt (m : String) (l : List Ev) :
    mkdirNames (Ev.prompt m :: l) = mkdirNames l := rfl

@[simp]
theorem mkdirNames_cons_duCall (p : String) (l : List Ev) :
    mkdirNames (Ev.duCall p :: l) = mkdirNames l := rfl

@[simp]
theorem mkdirNames_cons_stop (l : List Ev) :
    mkdirNames (Ev.stopContainers :: l) = mkdirNames l := rfl

@[simp]
theorem mkdirNames_cons_start (l : List Ev) :
    mkdirNames (Ev.startContainers :: l) = mkdirNames l := rfl

@[simp]
theorem mkdirNames_cons_rsync (v : String) (l : List Ev) :
    mkdirNames (Ev.rsync v :: l) = mkdirNames l := rfl

@[simp]
theorem mkdirNames_cons_skip (v : String) (l : List Ev) :
    mkdirNames (Ev.skipVol v :: l) = mkdirNames l := rfl

@[simp]
theorem mkdirNames_cons_rmtreeCall (n : String) (l : List Ev) :
    mkdirNames (Ev.rmtreeCall n :: l) = mkdirNames l := rfl

@[simp]
theorem mkdirNames_cons_mkdirToday (n : String) (l : List Ev) :
    mkdirNames (Ev.mkdirToday n :: l) = n :: mkdirNames l := rfl

/-! ## C10: `get_dir_size_gb` is total over `du` failures -/

/-- C10: when the `du -sb` subprocess exits nonzero, `get_dir_size_gb`
returns `0.0` instead of raising, so an unmeasurable backup is silently
reported as 0.00 GB. -/
theorem c10_dir_size_zero_on_du_failure (rc : Int) (stdout : String)
    (h : rc ≠ 0) :
    get_dir_size_gb rc stdout = .ok 0 := by
  rw [get_dir_size_gb, if_neg h]

theorem c10_witness :
    (1 : Int) ≠ 0 ∧ get_dir_size_gb 1 ("du: cannot access") = .ok 0 :=
  ⟨by decide, c10_dir_size_zero_on_du_failure 1 ("du: cannot access") (by decide)⟩

/-! ## C7: listing reports the directory children, sorted by name -/

/-- C7: `get_backups` is empty when the backup root does not exist, is
sorted ascending by name, and is a permutation of exactly the names of the
directory children (non-directory children are not listed); `list_backups`
reports exactly that list. -/
theorem c7_listing_sorted_dir_children (fs : FS) :
    (fs.root = none → get_backups fs = []) ∧
    (get_backups fs).Sorted (· ≤ ·) ∧
    (∀ cs, fs.root = some cs →
      (get_backups fs).Perm ((cs.filter (fun c => c.2)).map (fun c => c.1))) ∧
    (∀ env s r s1, list_backups env s = (.ok r, s1) → r = get_backups s.fs) := by
  refine ⟨?_, ?_, ?_, ?_⟩
  · intro h
    simp [get_backups, h]
  · rcases hfs : fs.root with _ | cs
    · simp [get_backups, hfs]
    · simp only [get_backups, hfs]
      exact sorted_pySortNames _
  · intro cs hcs
    simp only [get_backups, hcs]
    exact perm_pySortNames _
  · intro env s r s1 h
    simp only [list_backups] at h
    rcases hd : duSizes env (get_backups s.fs) s with ⟨r0, s0⟩
    rw [hd] at h
    cases r0 with
    | error e => simp [andThen] at h
    | ok u =>
      simp [andThen] at h
      exact h.1.symm

def fs7 : FS :=
  { root := some [("2026-10-10", true), ("notes.txt", false), ("2026-10-09", true)],
    srcVols := [] }

theorem c7_witness :
    get_backups fs7 = ["2026-10-09", "2026-10-10"] ∧
    (get_backups fs7).Sorted (· ≤ ·) ∧
    (get_backups fs7).Perm ["2026-10-10", "2026-10-09"] :=
  ⟨by decide, (c7_listing_sorted_dir_children fs7).2.1,
    (c7_listing_sorted_dir_children fs7).2.2.1 _ rfl⟩

/-! ## C4: preflight failures exit 1 before any effect -/

/-- C4: when the process is not running as root, or the mount point is not
an actual mount, `main` returns 1 with the initial state untouched: no
prompt, no container stop/start, no write to the backup root, no read of
the source volumes (the event trace stays empty and the filesystem and
container state are unchanged). -/
theorem c4_preflight_exits_one (env : Env) (fs0 : FS)
    (h : env.euid ≠ 0 ∨ env.mounted = false) :
    main env fs0 = (.ok 1, initSt env fs0) := by
  by_cases he : env.euid = 0
  · rcases h with h | h
    · exact absurd he h
    · simp [main, is_mounted, he, h]
  · simp [main, he]

def env4 : Env :=
  { euid := 1000, mounted := true, stdin := [],
    date := { year := 2026, month := 10, day := 12 },
    stopOk := true, startOk := true,
    rsyncOk := fun _ => true, du := fun _ => (1, "") }

theorem c4_witness :
    main env4 { root := none, srcVols := ["library", "postgres"] } =
      (.ok 1, initSt env4 { root := none, srcVols := ["library", "postgres"] }) :=
  c4_preflight_exits_one env4 _ (Or.inl (by decide))

/-! ## C3: pruning prompts once and removes the smallest-named backup -/

theorem sorted_get_backups (fs : FS) : (get_backups fs).Sorted (· ≤ ·) := by
  rcases hfs : fs.root with _ | cs
  · simp [get_backups, hfs]
  · simp only [get_backups, hfs]
    exact sorted_pySortNames _

/-- A member of `get_backups` is a directory child of the backup root. -/
theorem mem_get_backups {fs : FS} {cs : List Entry} {b0 : String}
    (hcs : fs.root = some cs) (h : b0 ∈ get_backups fs) : (b0, true) ∈ cs := by
  simp only [get_backups, hcs] at h
  have hm := (perm_pySortNames _).mem_iff.mp h
  rcases List.mem_map.mp hm with ⟨c, hcf, hc1⟩
  rcases List.mem_filter.mp hcf with ⟨hccs, hc2⟩
  have hc : c = (b0, true) := by
    rcases c with ⟨n, b⟩
    simp only at hc1 hc2
    simp [hc1, hc2]
  rwa [hc] at hccs

/-- With duplicate-free child names, removing by name removes exactly the
one directory entry of that name. -/
theorem filter_name_eq_filter_entry (cs : List Entry) (b0 : String)
    (hnd : (cs.map (fun c => c.1)).Nodup) (hmem : (b0, true) ∈ cs) :
    cs.filter (fun c => c.1 ≠ b0) = cs.filter (fun c => c ≠ (b0, true)) := by
  apply List.filter_congr
  intro c hc
  by_cases h : c.1 = b0
  · have hcb : c = (b0, true) := List.inj_on_of_nodup_map hnd hc hmem h
    simp [hcb]
  · have hcb : c ≠ (b0, true) := by
      intro he
      rw [he] at h
      exact h rfl
    simp [h, hcb]

/-- C3: when at most `MAX_BACKUPS` (7) backups exist, pruning neither
prompts nor changes anything; when more than 7 exist it prompts exactly
once, and on a stripped-lowercased `"y"` removes exactly the directory
entry of the lexicographically smallest backup name (which is first in
sorted order) and nothing else, while any other answer removes nothing. -/
theorem c3_prune_prompts_once_removes_min (s : St) :
    ((get_backups s.fs).length ≤ MAX_BACKUPS →
      maybe_delete_oldest s = (.ok (), s)) ∧
    (∀ cs b0 bs ans rest,
      s.fs.root = some cs →
      (cs.map (fun c => c.1)).Nodup →
      get_backups s.fs = b0 :: bs →
      MAX_BACKUPS < (b0 :: bs).length →
      s.stdin = ans :: rest →
      (∀ x ∈ b0 :: bs, b0 ≤ x) ∧
      (stripLower ans = "y" →
        maybe_delete_oldest s =
          (.ok (), { fs := { root := some (cs.filter (fun c => c ≠ (b0, true))),
                             srcVols := s.fs.srcVols },
                     stdin := rest,
                     trace := s.trace ++
                       [Ev.prompt ("Delete oldest backup " ++ b0 ++ "? [y/N] "),
                        Ev.rmtreeCall b0],
                     running := s.running })) ∧
      (stripLower ans ≠ "y" →
        maybe_delete_oldest s =
          (.ok (),
            { s with
              stdin := rest,
              trace := s.trace ++
                [Ev.prompt ("Delete oldest backup " ++ b0 ++ "? [y/N] ")] }))) := by
  constructor
  · intro h
    simp [maybe_delete_oldest, h]
  · intro cs b0 bs ans rest hcs hnd hb hlen hstdin
    have hmin : ∀ x ∈ b0 :: bs, b0 ≤ x := by
      have hs := sorted_get_backups s.fs
      rw [hb] at hs
      rcases List.sorted_cons.mp hs with ⟨hall, _⟩
      intro x hx
      rcases List.mem_cons.mp hx with hx | hx
      · exact le_of_eq hx.symm
      · exact hall x hx
    refine ⟨hmin, ?_, ?_⟩
    · intro hy
      have hmem : (b0, true) ∈ cs :=
        mem_get_backups hcs (by rw [hb]; exact List.mem_cons_self b0 bs)
      have hfe := filter_name_eq_filter_entry cs b0 hnd hmem
      simp only [maybe_delete_oldest, hb, if_neg (not_le.mpr hlen), pyInput,
        hstdin, andThen_ok, hy, if_pos, rmtree, hcs, if_pos hmem]
      simp only [ne_eq, decide_not] at hfe
      simp [List.append_assoc, hfe]
    · intro hn
      simp only [maybe_delete_oldest, hb, if_neg (not_le.mpr hlen), pyInput,
        hstdin, andThen_ok, if_neg hn]

def st3 : St :=
  { fs := { root := some [("2026-10-05", true), ("2026-10-01", true),
                          ("2026-10-02", true), ("2026-10-03", true),
                          ("2026-10-04", true), ("2026-10-08", true),
                          ("2026-10-06", true), ("2026-10-07", true)],
            srcVols := [] },
    stdin := ["y"], trace := [], running := true }

theorem c3_witness :
    maybe_delete_oldest st3 =
      (.ok (), { fs := { root := some [("2026-10-05", true), ("2026-10-02", true),
                                       ("2026-10-03", true), ("2026-10-04", true),
                                       ("2026-10-08", true), ("2026-10-06", true),
                                       ("2026-10-07", true)],
                         srcVols := [] },
                 stdin := [],
                 trace := [Ev.prompt ("Delete oldest backup 2026-10-01? [y/N] "),
                           Ev.rmtreeCall ("2026-10-01")],
                 running := true }) :=
  ((c3_prune_prompts_once_removes_min st3).2 _ ("2026-10-01") _ ("y") []
    rfl (by decide) rfl (by decide) rfl).2.1 rfl

/-! ## C6: volume order, skip on missing source, abort on rsync failure -/

/-- C6: during backup execution the volumes are processed in the fixed
order `["library", "postgres"]`: a volume whose source directory does not
exist is skipped and the next volume is still processed, whereas a nonzero
`rsync` exit raises `CalledProcessError` at once, aborting the remaining
volume copies. -/
theorem c6_volume_order_skip_abort (env : Env) (dest : String) (s s1 : St)
    (hmk : mkdirDest dest s = (.ok (), s1)) :
    run_backup env dest s = syncVolumes env VOLUMES_TO_BACKUP s1 ∧
    (("library") ∉ s1.fs.srcVols →
      (syncVolumes env VOLUMES_TO_BACKUP s1).2.trace =
        s1.trace ++ [Ev.skipVol ("library")] ++
          (if ("postgres") ∈ s1.fs.srcVols then [Ev.rsync ("postgres")]
           else [Ev.skipVol ("postgres")])) ∧
    (("library") ∈ s1.fs.srcVols → env.rsyncOk ("library") = false →
      syncVolumes env VOLUMES_TO_BACKUP s1 =
        (.error (.calledProcessError ("rsync " ++ "library")),
         { s1 with trace := s1.trace ++ [Ev.rsync ("library")] })) ∧
    (("library") ∈ s1.fs.srcVols → env.rsyncOk ("library") = true →
      (syncVolumes env VOLUMES_TO_BACKUP s1).2.trace =
        s1.trace ++ [Ev.rsync ("library")] ++
          (if ("postgres") ∈ s1.fs.srcVols then [Ev.rsync ("postgres")]
           else [Ev.skipVol ("postgres")])) := by
  refine ⟨by simp [run_backup, hmk], ?_, ?_, ?_⟩
  · intro hlib
    by_cases hpg : ("postgres") ∈ s1.fs.srcVols
    · by_cases hok : env.rsyncOk ("postgres") <;>
        simp [syncVolumes, VOLUMES_TO_BACKUP, hlib, hpg, hok]
    · simp [syncVolumes, VOLUMES_TO_BACKUP, hlib, hpg]
  · intro hlib hfail
    simp [syncVolumes, VOLUMES_TO_BACKUP, hlib, hfail]
  · intro hlib hok
    by_cases hpg : ("postgres") ∈ s1.fs.srcVols
    · by_cases hok2 : env.rsyncOk ("postgres") <;>
        simp [syncVolumes, VOLUMES_TO_BACKUP, hlib, hpg, hok, hok2]
    · simp [syncVolumes, VOLUMES_TO_BACKUP, hlib, hpg, hok]

def env6 : Env :=
  { euid := 0, mounted := true, stdin := [],
    date := { year := 2026, month := 10, day := 12 },
    stopOk := true, startOk := true,
    rsyncOk := fun _ => true, du := fun _ => (1, "") }

def st6 : St :=
  { fs := { root := none, srcVols := ["postgres"] },
    stdin := [], trace := [], running := false }

theorem c6_witness :
    (syncVolumes env6 VOLUMES_TO_BACKUP
        { fs := { root := some [("2026-10-12", true)], srcVols := ["postgres"] },
          stdin := [], trace := [Ev.mkdirToday ("2026-10-12")],
          running := false }).2.trace =
      [Ev.mkdirToday ("2026-10-12"), Ev.skipVol ("library"), Ev.rsync ("postgres")] :=
  (c6_volume_order_skip_abort env6 ("2026-10-12") st6 _ rfl).2.1 (by decide)

/-! ## Infrastructure for the stop–backup–start block (C1, C2) -/

/-- Function `syncVolumes` never touches the filesystem, stdin or container state. -/
theorem syncVolumes_fs (env : Env) : ∀ (l : List String) (s : St),
    (syncVolumes env l s).2.fs = s.fs ∧
    (syncVolumes env l s).2.stdin = s.stdin ∧
    (syncVolumes env l s).2.running = s.running
  | [], s => ⟨rfl, rfl, rfl⟩
  | vol :: rest, s => by
    by_cases hv : vol ∈ s.fs.srcVols
    · by_cases hok : env.rsyncOk vol
      · simpa [syncVolumes, hv, hok] using syncVolumes_fs env rest _
      · simp [syncVolumes, hv, hok]
    · simpa [syncVolumes, hv] using syncVolumes_fs env rest _

/-- A failing `rsync` for any existing configured volume makes the volume
loop raise. -/
theorem syncVolumes_err (env : Env) : ∀ (l : List String) (s : St),
    (∃ vol ∈ l, vol ∈ s.fs.srcVols ∧ env.rsyncOk vol = false) →
    ∃ e, (syncVolumes env l s).1 = .error e
  | [], s => by
    intro h
    simp at h
  | vol :: rest, s => by
    intro h
    by_cases hv : vol ∈ s.fs.srcVols
    · by_cases hok : env.rsyncOk vol
      · have hrest : ∃ v ∈ rest, v ∈ s.fs.srcVols ∧ env.rsyncOk v = false := by
          rcases h with ⟨v, hvl, hvsrc, hvfail⟩
          rcases List.mem_cons.mp hvl with rfl | hvl
          · rw [hok] at hvfail
            exact absurd hvfail (by simp)
          · exact ⟨v, hvl, hvsrc, hvfail⟩
        have hrec := syncVolumes_err env rest
          { s with trace := s.trace ++ [Ev.rsync vol] } hrest
        simpa [syncVolumes, hv, hok] using hrec
      · simp [syncVolumes, hv, hok]
    · have hrest : ∃ v ∈ rest, v ∈ s.fs.srcVols ∧ env.rsyncOk v = false := by
        rcases h with ⟨v, hvl, hvsrc, hvfail⟩
        rcases List.mem_cons.mp hvl with rfl | hvl
        · exact absurd hvsrc hv
        · exact ⟨v, hvl, hvsrc, hvfail⟩
      have hrec := syncVolumes_err env rest
        { s with trace := s.trace ++ [Ev.skipVol vol] } hrest
      simpa [syncVolumes, hv] using hrec

/-- When no non-directory occupies the destination path,
`dest.mkdir(parents=True, exist_ok=True)` succeeds and afterwards the
destination is a directory child of the backup root; at most one
`mkdirToday` event is emitted. -/
theorem mkdirDest_ok_spec (dest : String) (s : St)
    (hfile : ∀ cs, s.fs.root = some cs → (dest, false) ∉ cs) :
    ∃ s1 cs1, mkdirDest dest s = (.ok (), s1) ∧
      s1.fs.root = some cs1 ∧ (dest, true) ∈ cs1 ∧ (dest, false) ∉ cs1 ∧
      s1.fs.srcVols = s.fs.srcVols ∧ s1.stdin = s.stdin ∧
      s1.running = s.running ∧
      (s1.trace = s.trace ∨ s1.trace = s.trace ++ [Ev.mkdirToday dest]) := by
  rcases hroot : s.fs.root with _ | cs
  · refine
      ⟨{ s with
          fs := { s.fs with root := some [(dest, true)] },
          trace := s.trace ++ [Ev.mkdirToday dest] },
        [(dest, true)], ?_, rfl, ?_, ?_, rfl, rfl, rfl, Or.inr rfl⟩
    · simp [mkdirDest, hroot]
    · simp
    · simp
  · have hnf : (dest, false) ∉ cs := hfile cs hroot
    by_cases hdt : (dest, true) ∈ cs
    · refine ⟨s, cs, ?_, hroot, hdt, hnf, rfl, rfl, rfl, Or.inl rfl⟩
      simp [mkdirDest, hroot, hnf, hdt]
    · refine
        ⟨{ s with
            fs := { s.fs with root := some (cs ++ [(dest, true)]) },
            trace := s.trace ++ [Ev.mkdirToday dest] },
          cs ++ [(dest, true)], ?_, rfl, ?_, ?_, rfl, rfl, rfl, Or.inr rfl⟩
      · simp [mkdirDest, hroot, hnf, hdt]
      · simp
      · simp [hnf]

/-- Removing a directory child of the backup root. -/
theorem rmtree_dir {name : String} {s : St} {cs : List Entry}
    (hroot : s.fs.root = some cs) (hmem : (name, true) ∈ cs) :
    rmtree name s = (.ok (),
      { s with fs := { s.fs with root := some (cs.filter (fun c => c.1 ≠ name)) },
               trace := s.trace ++ [Ev.rmtreeCall name] }) := by
  simp [rmtree, hroot, hmem]

/-- After removing every entry named `dest`, the destination no longer
exists. -/
theorem destExists_after_filter (dest : String) (cs1 : List Entry) (fs : FS)
    (h : fs.root = some (cs1.filter (fun c => c.1 ≠ dest))) :
    destExists dest fs = false := by
  simp only [destExists, h]
  rw [List.any_eq_false]
  intro c hc
  have h2 := (List.mem_filter.mp hc).2
  simp only [ne_eq, decide_not, Bool.not_eq_eq_eq_not, Bool.not_true,
    decide_eq_false_iff_not] at h2
  simp [h2]

theorem finallyCleanupStart_ok (env : Env) (dest : String) (u : Unit) (s : St) :
    finallyCleanupStart env dest (.ok u, s) = start_immich env s := rfl

theorem finallyCleanupStart_error (env : Env) (dest : String) (e : Exc) (s : St) :
    finallyCleanupStart env dest (.error e, s) =
      if destExists dest s.fs then
        andThen (rmtree dest s) fun _ s =>
          andThen (start_immich env s) fun _ s => (.error e, s)
      else andThen (start_immich env s) fun _ s => (.error e, s) := rfl

/-- Master lemma for the stop–backup–start block under a successful stop
and a destination path not occupied by a non-directory: the restart is
attempted on every exit path, and if the `rsync` of some existing volume fails
the destination is removed and the error propagates. -/
theorem stopBackupStart_run (env : Env) (dest : String) (s : St)
    (hstop : env.stopOk = true)
    (hfile : ∀ cs, s.fs.root = some cs → (dest, false) ∉ cs) :
    Ev.startContainers ∈ (stopBackupStart env dest s).2.trace ∧
    ((∃ vol ∈ VOLUMES_TO_BACKUP, vol ∈ s.fs.srcVols ∧ env.rsyncOk vol = false) →
      destExists dest (stopBackupStart env dest s).2.fs = false ∧
      ∃ e, (stopBackupStart env dest s).1 = .error e) := by
  have hstopc : stop_immich env s =
      (.ok (), { s with trace := s.trace ++ [Ev.stopContainers], running := false }) := by
    simp [stop_immich, hstop]
  obtain ⟨s3, cs1, hmk, hroot3, hmemd, hnof3, hsrc3, hstdin3, hrun3, htr3⟩ :=
    mkdirDest_ok_spec dest
      { s with trace := s.trace ++ [Ev.stopContainers], running := false } hfile
  have hrb : stopBackupStart env dest s =
      finallyCleanupStart env dest (syncVolumes env VOLUMES_TO_BACKUP s3) := by
    rw [stopBackupStart, hstopc, andThen_ok, run_backup, hmk, andThen_ok]
  rcases hsv : syncVolumes env VOLUMES_TO_BACKUP s3 with ⟨r4, s4⟩
  have hfs4 : s4.fs = s3.fs := by
    have h := (syncVolumes_fs env VOLUMES_TO_BACKUP s3).1
    rw [hsv] at h
    exact h
  rw [hrb, hsv]
  cases r4 with
  | ok u =>
    constructor
    · rw [finallyCleanupStart_ok]
      by_cases hso : env.startOk <;> simp [start_immich, hso]
    · intro hfail
      have hfail3 : ∃ vol ∈ VOLUMES_TO_BACKUP, vol ∈ s3.fs.srcVols ∧
          env.rsyncOk vol = false := by
        rcases hfail with ⟨v, hvl, hvsrc, hvfail⟩
        exact ⟨v, hvl, by rw [hsrc3]; exact hvsrc, hvfail⟩
      have := syncVolumes_err env VOLUMES_TO_BACKUP s3 hfail3
      rw [hsv] at this
      rcases this with ⟨e, he⟩
      exact absurd he (by simp)
  | error e =>
    have hde4 : destExists dest s4.fs = true := by
      rw [hfs4]
      simp only [destExists, hroot3]
      rw [List.any_eq_true]
      exact ⟨(dest, true), hmemd, by simp⟩
    have hroot4 : s4.fs.root = some cs1 := by rw [hfs4, hroot3]
    have hrm := rmtree_dir hroot4 hmemd
    rw [finallyCleanupStart_error, hde4]
    simp only [if_true, hrm, andThen_ok]
    by_cases hso : env.startOk
    · simp only [start_immich, hso, if_true, andThen_ok]
      refine ⟨by simp, fun _ => ⟨?_, ⟨e, rfl⟩⟩⟩
      exact destExists_after_filter dest cs1 _ rfl
    · simp only [start_immich, hso, if_false, Bool.false_eq_true, andThen_error]
      refine ⟨by simp, fun _ => ⟨?_, ?_⟩⟩
      · exact destExists_after_filter dest cs1 _ rfl
      · exact ⟨.calledProcessError ("docker compose start"), rfl⟩

/-! ## C1: restart on every exit path — corrected -/

def envC1 : Env :=
  { euid := 0, mounted := true, stdin := ["y", ""],
    date := { year := 2026, month := 10, day := 12 },
    stopOk := true, startOk := true,
    rsyncOk := fun _ => true, du := fun _ => (1, "") }

def fsC1 : FS :=
  { root := some [("2026-10-12", false)], srcVols := ["library", "postgres"] }

/-- C1 counterexample: with a plain FILE named `2026-10-12` in the backup
root, overwrite confirmed and the final prompt accepted, the run stops the
containers, `mkdir` raises `FileExistsError`, and the `rmtree` cleanup in
the `finally:` block raises `NotADirectoryError` on the non-directory, so
`start_immich` is never reached: the containers are left stopped even
though the container-stop step was reached and the backup step raised. -/
theorem c1_counterexample :
    envC1.stopOk = true ∧
    Ev.stopContainers ∈ (main envC1 fsC1).2.trace ∧
    Ev.startContainers ∉ (main envC1 fsC1).2.trace ∧
    (main envC1 fsC1).2.running = false ∧
    (main envC1 fsC1).1 = .error (.notADirectoryError ("2026-10-12")) :=
  ⟨rfl, by decide, by decide, rfl, rfl⟩

/-- C1 (amended): for every run that reaches the container-stop step with a
successful stop, a container restart is attempted on every exit path of
the backup step — whether the copy succeeds or raises — provided the
destination path is not occupied by a non-directory entry (in that corner
case the failure cleanup itself raises and the restart is skipped). -/
theorem c1_restart_attempted (env : Env) (dest : String) (s : St)
    (hstop : env.stopOk = true)
    (hfile : ∀ cs, s.fs.root = some cs → (dest, false) ∉ cs) :
    Ev.startContainers ∈ (stopBackupStart env dest s).2.trace :=
  (stopBackupStart_run env dest s hstop hfile).1

def env1 : Env :=
  { euid := 0, mounted := true, stdin := [],
    date := { year := 2026, month := 10, day := 12 },
    stopOk := true, startOk := false,
    rsyncOk := fun _ => true, du := fun _ => (1, "") }

def st1 : St :=
  { fs := { root := none, srcVols := ["library"] },
    stdin := [], trace := [], running := true }

theorem c1_witness :
    Ev.startContainers ∈ (stopBackupStart env1 ("2026-10-12") st1).2.trace :=
  c1_restart_attempted env1 ("2026-10-12") st1 rfl
    (by
      intro cs h
      simp [st1] at h)

/-! ## C2: cleanup of the partial backup on copy failure -/

/-- C2: if the copy step raises after the destination directory has been
created (stop succeeded, destination path not occupied by a non-directory,
and the `rsync` of some existing volume exits nonzero), then afterwards the
destination directory no longer exists, the container restart was still
attempted, and the error propagates out of the block. -/
theorem c2_copy_failure_cleanup (env : Env) (dest : String) (s : St)
    (hstop : env.stopOk = true)
    (hfile : ∀ cs, s.fs.root = some cs → (dest, false) ∉ cs)
    (hfail : ∃ vol ∈ VOLUMES_TO_BACKUP, vol ∈ s.fs.srcVols ∧
      env.rsyncOk vol = false) :
    destExists dest (stopBackupStart env dest s).2.fs = false ∧
    Ev.startContainers ∈ (stopBackupStart env dest s).2.trace ∧
    ∃ e, (stopBackupStart env dest s).1 = .error e := by
  obtain ⟨h1, h2⟩ := stopBackupStart_run env dest s hstop hfile
  obtain ⟨h3, h4⟩ := h2 hfail
  exact ⟨h3, h1, h4⟩

def env2 : Env :=
  { euid := 0, mounted := true, stdin := [],
    date := { year := 2026, month := 10, day := 12 },
    stopOk := true, startOk := true,
    rsyncOk := fun v => v ≠ "library", du := fun _ => (1, "") }

def st2 : St :=
  { fs := { root := none, srcVols := ["library", "postgres"] },
    stdin := [], trace := [], running := true }

theorem c2_witness :
    destExists ("2026-10-12") (stopBackupStart env2 ("2026-10-12") st2).2.fs = false ∧
    Ev.startContainers ∈ (stopBackupStart env2 ("2026-10-12") st2).2.trace ∧
    ∃ e, (stopBackupStart env2 ("2026-10-12") st2).1 = .error e :=
  c2_copy_failure_cleanup env2 ("2026-10-12") st2 rfl
    (by
      intro cs h
      simp [st2] at h)
    ⟨"library", by decide, by decide, by decide⟩

/-! ## Trace-extension lemmas

Each step only appends to the event trace; these lemmas record the
appended events and that no directory is created under the backup root
outside `mkdirDest`. -/

theorem pyInput_trace (m : String) (s : St) :
    (pyInput m s).2.trace = s.trace ++ [Ev.prompt m] := by
  rcases hstdin : s.stdin with _ | ⟨a, rest⟩ <;> simp [pyInput, hstdin]

theorem stop_immich_trace (env : Env) (s : St) :
    (stop_immich env s).2.trace = s.trace ++ [Ev.stopContainers] := by
  by_cases h : env.stopOk <;> simp [stop_immich, h]

theorem start_immich_trace (env : Env) (s : St) :
    (start_immich env s).2.trace = s.trace ++ [Ev.startContainers] := by
  by_cases h : env.startOk <;> simp [start_immich, h]

theorem rmtree_trace (name : String) (s : St) :
    (rmtree name s).2.trace = s.trace ++ [Ev.rmtreeCall name] := by
  rcases hroot : s.fs.root with _ | cs
  · simp [rmtree, hroot]
  · by_cases h1 : (name, true) ∈ cs
    · simp [rmtree, hroot, h1]
    · by_cases h2 : (name, false) ∈ cs <;> simp [rmtree, hroot, h1, h2]

theorem show_backup_stats_trace (env : Env) (dest : String) (s : St) :
    (show_backup_stats env dest s).2.trace = s.trace ++ [Ev.duCall dest] := by
  cases hg : get_dir_size_gb (env.du dest).1 (env.du dest).2 <;>
    simp [show_backup_stats, hg]

theorem duSizes_trace (env : Env) : ∀ (l : List String) (s : St),
    ∃ d, (duSizes env l s).2.trace = s.trace ++ d ∧ mkdirNames d = []
  | [], s => ⟨[], by simp [duSizes], rfl⟩
  | b :: rest, s => by
    cases hg : get_dir_size_gb (env.du b).1 (env.du b).2 with
    | error e => exact ⟨[Ev.duCall b], by simp [duSizes, hg], rfl⟩
    | ok q =>
      obtain ⟨d, hd, hm⟩ := duSizes_trace env rest
        { s with trace := s.trace ++ [Ev.duCall b] }
      refine ⟨[Ev.duCall b] ++ d, ?_, by simp [hm]⟩
      simp only [duSizes, hg]
      rw [hd]
      simp

theorem list_backups_trace (env : Env) (s : St) :
    ∃ d, (list_backups env s).2.trace = s.trace ++ d ∧ mkdirNames d = [] := by
  obtain ⟨d, hd, hm⟩ := duSizes_trace env (get_backups s.fs) s
  rcases hds : duSizes env (get_backups s.fs) s with ⟨r, s1⟩
  rw [hds] at hd
  cases r with
  | error e =>
    refine ⟨d, ?_, hm⟩
    simp only [list_backups, hds, andThen_error]
    exact hd
  | ok u =>
    refine ⟨d, ?_, hm⟩
    simp only [list_backups, hds, andThen_ok]
    exact hd

theorem maybe_delete_oldest_trace (s : St) :
    ∃ d, (maybe_delete_oldest s).2.trace = s.trace ++ d ∧ mkdirNames d = [] := by
  by_cases hlen : (get_backups s.fs).length ≤ MAX_BACKUPS
  · exact ⟨[], by simp [maybe_delete_oldest, hlen], rfl⟩
  · rcases hb : get_backups s.fs with _ | ⟨b0, bs⟩
    · rw [hb] at hlen
      exact absurd (by simp [MAX_BACKUPS]) hlen
    · rw [hb] at hlen
      have hun : maybe_delete_oldest s =
          andThen (pyInput ("Delete oldest backup " ++ b0 ++ "? [y/N] ") s)
            (fun resp s => if stripLower resp = "y" then rmtree b0 s
              else (.ok (), s)) := by
        simp only [maybe_delete_oldest, hb]
        rw [if_neg hlen]
      rcases hstdin : s.stdin with _ | ⟨ans, rest⟩
      · refine ⟨[Ev.prompt ("Delete oldest backup " ++ b0 ++ "? [y/N] ")], ?_, rfl⟩
        rw [hun]
        simp [pyInput, hstdin]
      · by_cases hy : stripLower ans = "y"
        · refine ⟨[Ev.prompt ("Delete oldest backup " ++ b0 ++ "? [y/N] "),
            Ev.rmtreeCall b0], ?_, rfl⟩
          rw [hun]
          simp [pyInput, hstdin, hy, rmtree_trace]
        · refine ⟨[Ev.prompt ("Delete oldest backup " ++ b0 ++ "? [y/N] ")], ?_, rfl⟩
          rw [hun]
          simp [pyInput, hstdin, hy]

theorem check_today_exists_trace (env : Env) (s : St) :
    ∃ d, (check_today_exists env s).2.trace = s.trace ++ d ∧ mkdirNames d = [] := by
  by_cases hde : destExists (strftimeYmd env.date) s.fs
  · rcases hstdin : s.stdin with _ | ⟨ans, rest⟩
    · exact ⟨[Ev.prompt ("Overwrite? [y/N] ")], by
        simp [check_today_exists, hde, pyInput, hstdin], rfl⟩
    · by_cases hy : stripLower ans = "y"
      · exact ⟨[Ev.prompt ("Overwrite? [y/N] ")], by
          simp [check_today_exists, hde, pyInput, hstdin, hy], rfl⟩
      · exact ⟨[Ev.prompt ("Overwrite? [y/N] ")], by
          simp [check_today_exists, hde, pyInput, hstdin, hy], rfl⟩
  · exact ⟨[], by simp [check_today_exists, hde], rfl⟩

/-- The destination returned by `check_today_exists` is always the formatted
current date. -/
theorem check_today_exists_fst {env : Env} {s : St} {dp : String × Bool}
    {s1 : St} (h : check_today_exists env s = (.ok dp, s1)) :
    dp.1 = strftimeYmd env.date := by
  by_cases hde : destExists (strftimeYmd env.date) s.fs
  · rcases hstdin : s.stdin with _ | ⟨ans, rest⟩
    · exfalso
      simp [check_today_exists, hde, pyInput, hstdin] at h
    · by_cases hy : stripLower ans = "y"
      · have hres : check_today_exists env s =
            (.ok (strftimeYmd env.date, true),
              { s with
                stdin := rest,
                trace := s.trace ++ [Ev.prompt ("Overwrite? [y/N] ")] }) := by
          simp [check_today_exists, hde, pyInput, hstdin, hy]
        rw [hres] at h
        have h2 : (strftimeYmd env.date, true) = dp :=
          Except.ok.inj (congrArg Prod.fst h)
        rw [← h2]
      · have hres : check_today_exists env s =
            (.ok (strftimeYmd env.date, false),
              { s with
                stdin := rest,
                trace := s.trace ++ [Ev.prompt ("Overwrite? [y/N] ")] }) := by
          simp [check_today_exists, hde, pyInput, hstdin, hy]
        rw [hres] at h
        have h2 : (strftimeYmd env.date, false) = dp :=
          Except.ok.inj (congrArg Prod.fst h)
        rw [← h2]
  · have hres : check_today_exists env s = (.ok (strftimeYmd env.date, true), s) := by
      simp [check_today_exists, hde]
    rw [hres] at h
    have h2 : (strftimeYmd env.date, true) = dp :=
      Except.ok.inj (congrArg Prod.fst h)
    rw [← h2]

theorem syncVolumes_trace (env : Env) : ∀ (l : List String) (s : St),
    ∃ d, (syncVolumes env l s).2.trace = s.trace ++ d ∧ mkdirNames d = []
  | [], s => ⟨[], by simp [syncVolumes], rfl⟩
  | vol :: rest, s => by
    by_cases hv : vol ∈ s.fs.srcVols
    · by_cases hok : env.rsyncOk vol
      · obtain ⟨d, hd, hm⟩ := syncVolumes_trace env rest
          { s with trace := s.trace ++ [Ev.rsync vol] }
        refine ⟨[Ev.rsync vol] ++ d, ?_, by simp [hm]⟩
        rw [show syncVolumes env (vol :: rest) s =
              syncVolumes env rest { s with trace := s.trace ++ [Ev.rsync vol] }
            from by simp [syncVolumes, hv, hok]]
        rw [hd]
        simp
      · exact ⟨[Ev.rsync vol], by simp [syncVolumes, hv, hok], rfl⟩
    · obtain ⟨d, hd, hm⟩ := syncVolumes_trace env rest
        { s with trace := s.trace ++ [Ev.skipVol vol] }
      refine ⟨[Ev.skipVol vol] ++ d, ?_, by simp [hm]⟩
      rw [show syncVolumes env (vol :: rest) s =
            syncVolumes env rest { s with trace := s.trace ++ [Ev.skipVol vol] }
          from by simp [syncVolumes, hv]]
      rw [hd]
      simp

theorem mkdirDest_trace (dest : String) (s : St) :
    ∃ d, (mkdirDest dest s).2.trace = s.trace ++ d ∧
      (mkdirNames d = [] ∨ mkdirNames d = [dest]) := by
  rcases hroot : s.fs.root with _ | cs
  · exact ⟨[Ev.mkdirToday dest], by simp [mkdirDest, hroot], Or.inr rfl⟩
  · by_cases h1 : (dest, false) ∈ cs
    · exact ⟨[], by simp [mkdirDest, hroot, h1], Or.inl rfl⟩
    · by_cases h2 : (dest, true) ∈ cs
      · exact ⟨[], by simp [mkdirDest, hroot, h1, h2], Or.inl rfl⟩
      · exact ⟨[Ev.mkdirToday dest], by simp [mkdirDest, hroot, h1, h2], Or.inr rfl⟩

theorem run_backup_trace (env : Env) (dest : String) (s : St) :
    ∃ d, (run_backup env dest s).2.trace = s.trace ++ d ∧
      (mkdirNames d = [] ∨ mkdirNames d = [dest]) := by
  obtain ⟨d1, hd1, hm1⟩ := mkdirDest_trace dest s
  rcases hmk : mkdirDest dest s with ⟨r1, s1⟩
  rw [hmk] at hd1
  have hd1' : s1.trace = s.trace ++ d1 := hd1
  cases r1 with
  | error e =>
    refine ⟨d1, ?_, hm1⟩
    simp only [run_backup, hmk, andThen_error]
    exact hd1'
  | ok u =>
    obtain ⟨d2, hd2, hm2⟩ := syncVolumes_trace env VOLUMES_TO_BACKUP s1
    refine ⟨d1 ++ d2, ?_, ?_⟩
    · simp only [run_backup, hmk, andThen_ok]
      rw [hd2, hd1', List.append_assoc]
    · rcases hm1 with h | h
      · left
        simp [h, hm2]
      · right
        simp [h, hm2]

theorem finallyCleanupStart_trace (env : Env) (dest : String) :
    ∀ r : Except Exc Unit × St,
    ∃ d, (finallyCleanupStart env dest r).2.trace = r.2.trace ++ d ∧
      mkdirNames d = []
  | (.ok u, s) =>
    ⟨[Ev.startContainers], by rw [finallyCleanupStart_ok]; exact start_immich_trace env s, rfl⟩
  | (.error e, s) => by
    rw [finallyCleanupStart_error]
    by_cases hde : destExists dest s.fs
    · simp only [hde, if_true]
      rcases hrm : rmtree dest s with ⟨r1, s1⟩
      have htr1 : s1.trace = s.trace ++ [Ev.rmtreeCall dest] := by
        have h := rmtree_trace dest s
        rw [hrm] at h
        exact h
      cases r1 with
      | error e1 => exact ⟨[Ev.rmtreeCall dest], by simp [hrm, htr1], rfl⟩
      | ok u =>
        rcases hst : start_immich env s1 with ⟨r2, s2⟩
        have htr2 : s2.trace = s1.trace ++ [Ev.startContainers] := by
          have h := start_immich_trace env s1
          rw [hst] at h
          exact h
        cases r2 with
        | error e2 =>
          exact ⟨[Ev.rmtreeCall dest, Ev.startContainers],
            by simp [hrm, hst, htr2, htr1], rfl⟩
        | ok u2 =>
          exact ⟨[Ev.rmtreeCall dest, Ev.startContainers],
            by simp [hrm, hst, htr2, htr1], rfl⟩
    · simp only [hde, if_false, Bool.false_eq_true]
      rcases hst : start_immich env s with ⟨r2, s2⟩
      have htr2 : s2.trace = s.trace ++ [Ev.startContainers] := by
        have h := start_immich_trace env s
        rw [hst] at h
        exact h
      cases r2 with
      | error e2 => exact ⟨[Ev.startContainers], by simp [hst, htr2], rfl⟩
      | ok u2 => exact ⟨[Ev.startContainers], by simp [hst, htr2], rfl⟩

theorem stopBackupStart_trace (env : Env) (dest : String) (s : St) :
    ∃ d, (stopBackupStart env dest s).2.trace =
        s.trace ++ (Ev.stopContainers :: d) ∧
      (mkdirNames d = [] ∨ mkdirNames d = [dest]) := by
  rcases hst : stop_immich env s with ⟨r1, s1⟩
  have htr1 : s1.trace = s.trace ++ [Ev.stopContainers] := by
    have h := stop_immich_trace env s
    rw [hst] at h
    exact h
  cases r1 with
  | error e =>
    exact ⟨[], by simp [stopBackupStart, hst, htr1], Or.inl rfl⟩
  | ok u =>
    obtain ⟨d2, hd2, hm2⟩ := run_backup_trace env dest s1
    rcases hrb : run_backup env dest s1 with ⟨r2, s2⟩
    rw [hrb] at hd2
    obtain ⟨d3, hd3, hm3⟩ := finallyCleanupStart_trace env dest (r2, s2)
    refine ⟨d2 ++ d3, ?_, ?_⟩
    · simp only [stopBackupStart, hst, andThen_ok, hrb]
      rw [hd3]
      have hd2' : s2.trace = s1.trace ++ d2 := hd2
      rw [show (r2, s2).2.trace = s2.trace from rfl, hd2', htr1]
      simp
    · rcases hm2 with h | h
      · left
        simp [h, hm3]
      · right
        simp [h, hm3]

/-! ## C9: only a stripped-lowercased "n" cancels at the proceed prompt -/

/-- C9: at the final proceed prompt, every answer whose stripped,
lowercased form is not exactly `"n"` (for example `"no"` or a typo) causes
the backup to proceed rather than cancel: the container-stop step runs. -/
theorem c9_only_n_cancels (env : Env) (fs0 : FS)
    (hroot : env.euid = 0) (hmnt : env.mounted = true)
    (v1 : List String) (s1 : St) (v2 : Unit) (s2 : St)
    (dp : String × Bool) (s3 : St) (ans : String) (rest : List String)
    (h1 : list_backups env (initSt env fs0) = (.ok v1, s1))
    (h2 : maybe_delete_oldest s1 = (.ok v2, s2))
    (h3 : check_today_exists env s2 = (.ok dp, s3))
    (hdp : dp.2 = true)
    (hst : s3.stdin = ans :: rest)
    (hans : stripLower ans ≠ "n") :
    Ev.stopContainers ∈ (main env fs0).2.trace := by
  have hmain : main env fs0 =
      andThen (stopBackupStart env dp.1
          { s3 with
            stdin := rest,
            trace := s3.trace ++ [Ev.prompt ("Proceed with backup? [Y/n] ")] })
        (fun _ s => andThen (show_backup_stats env dp.1 s)
          fun _ s => (.ok 0, s)) := by
    simp [main, hroot, hmnt, is_mounted, h1, h2, h3, hdp, pyInput, hst, hans]
  rw [hmain]
  obtain ⟨d, hd, _⟩ := stopBackupStart_trace env dp.1
    { s3 with
      stdin := rest,
      trace := s3.trace ++ [Ev.prompt ("Proceed with backup? [Y/n] ")] }
  rcases hbb : stopBackupStart env dp.1
      { s3 with
        stdin := rest,
        trace := s3.trace ++ [Ev.prompt ("Proceed with backup? [Y/n] ")] }
    with ⟨rb, sb⟩
  rw [hbb] at hd
  have hd' : sb.trace =
      (s3.trace ++ [Ev.prompt ("Proceed with backup? [Y/n] ")]) ++
        (Ev.stopContainers :: d) := hd
  cases rb with
  | error e =>
    simp only [andThen_error]
    rw [show ((Except.error e : Except Exc Unit), sb).2.trace = sb.trace from rfl,
      hd']
    simp
  | ok u =>
    simp only [andThen_ok]
    rcases hss : show_backup_stats env dp.1 sb with ⟨rs, ss⟩
    have hts : ss.trace = sb.trace ++ [Ev.duCall dp.1] := by
      have h := show_backup_stats_trace env dp.1 sb
      rw [hss] at h
      exact h
    cases rs with
    | error e2 =>
      simp only [hss, andThen_error]
      rw [show ((Except.error e2 : Except Exc Unit), ss).2.trace = ss.trace from rfl,
        hts, hd']
      simp
    | ok u2 =>
      simp only [hss, andThen_ok]
      rw [show ((Except.ok (0 : Nat) : Except Exc Nat), ss).2.trace = ss.trace from rfl,
        hts, hd']
      simp

def env9 : Env :=
  { euid := 0, mounted := true, stdin := ["no"],
    date := { year := 2026, month := 10, day := 12 },
    stopOk := true, startOk := true,
    rsyncOk := fun _ => true, du := fun _ => (1, "") }

def fs9 : FS := { root := none, srcVols := [] }

theorem c9_witness : Ev.stopContainers ∈ (main env9 fs9).2.trace :=
  c9_only_n_cancels env9 fs9 rfl rfl _ _ () _ _ _ ("no") []
    rfl rfl rfl rfl rfl (by decide)

/-! ## C5: user cancellations exit 0 and change nothing afterwards -/

/-- C5: every user cancellation is a normal exit 0 leaving the filesystem
and container state unchanged from the cancellation point onward:
answering anything but "y" to the overwrite prompt when the destination
for today already exists aborts with exit 0, and answering "n" to the
final proceed prompt exits 0 with no directory created, no rsync invoked,
and no container stopped or started — in both cases the final state is
exactly the cancellation-point state with only the prompt shown and the
answer consumed. -/
theorem c5_cancellation_frame (env : Env) (fs0 : FS)
    (hroot : env.euid = 0) (hmnt : env.mounted = true) :
    (∀ (v1 : List String) (s1 : St) (v2 : Unit) (s2 : St) (ans : String)
        (rest : List String),
      list_backups env (initSt env fs0) = (.ok v1, s1) →
      maybe_delete_oldest s1 = (.ok v2, s2) →
      destExists (strftimeYmd env.date) s2.fs = true →
      s2.stdin = ans :: rest →
      stripLower ans ≠ "y" →
      main env fs0 =
        (.ok 0,
          { s2 with
            stdin := rest,
            trace := s2.trace ++ [Ev.prompt ("Overwrite? [y/N] ")] })) ∧
    (∀ (v1 : List String) (s1 : St) (v2 : Unit) (s2 : St) (dp : String × Bool)
        (s3 : St) (ans : String) (rest : List String),
      list_backups env (initSt env fs0) = (.ok v1, s1) →
      maybe_delete_oldest s1 = (.ok v2, s2) →
      check_today_exists env s2 = (.ok dp, s3) →
      dp.2 = true →
      s3.stdin = ans :: rest →
      stripLower ans = "n" →
      main env fs0 =
        (.ok 0,
          { s3 with
            stdin := rest,
            trace := s3.trace ++ [Ev.prompt ("Proceed with backup? [Y/n] ")] })) := by
  constructor
  · intro v1 s1 v2 s2 ans rest h1 h2 hde hstdin hans
    simp [main, hroot, hmnt, is_mounted, h1, h2, check_today_exists, hde,
      pyInput, hstdin, hans]
  · intro v1 s1 v2 s2 dp s3 ans rest h1 h2 h3 hdp hstdin hans
    simp [main, hroot, hmnt, is_mounted, h1, h2, h3, hdp, pyInput, hstdin, hans]

def env5 : Env :=
  { euid := 0, mounted := true, stdin := ["x"],
    date := { year := 2026, month := 10, day := 12 },
    stopOk := true, startOk := true,
    rsyncOk := fun _ => true, du := fun _ => (1, "") }

def fs5 : FS := { root := some [("2026-10-12", true)], srcVols := ["library"] }

theorem c5_witness :
    main env5 fs5 =
      (.ok 0,
        { fs := fs5, stdin := [],
          trace := [Ev.duCall ("2026-10-12"), Ev.prompt ("Overwrite? [y/N] ")],
          running := true }) :=
  (c5_cancellation_frame env5 fs5 rfl rfl).1 _ _ () _ ("x") []
    rfl rfl rfl rfl (by decide)

/-! ## C8: at most one new dated directory per run -/

/-- C8: every run creates at most one new directory directly under the
backup root, and when one is created its name is the current date
formatted `YYYY-MM-DD` (`strftimeYmd env.date`); hence a run never
produces a second backup directory for the same calendar day — a rerun on
the same day reuses the existing path. -/
theorem c8_at_most_one_dated_dir (env : Env) (fs0 : FS) :
    mkdirNames (main env fs0).2.trace = [] ∨
    mkdirNames (main env fs0).2.trace = [strftimeYmd env.date] := by
  by_cases he : env.euid = 0
  swap
  · left
    simp [main, he, initSt, mkdirNames]
  by_cases hm : env.mounted
  swap
  · left
    simp [main, he, hm, is_mounted, initSt, mkdirNames]
  have hmain : main env fs0 =
      andThen (list_backups env (initSt env fs0)) (fun _ s =>
        andThen (maybe_delete_oldest s) fun _ s =>
        andThen (check_today_exists env s) fun dp s =>
          if !dp.2 then (.ok 0, s)
          else
            andThen (pyInput ("Proceed with backup? [Y/n] ") s) fun resp s =>
              if stripLower resp = "n" then (.ok 0, s)
              else
                andThen (stopBackupStart env dp.1 s) fun _ s =>
                  andThen (show_backup_stats env dp.1 s) fun _ s =>
                    (.ok 0, s)) := by
    simp [main, he, hm, is_mounted]
  rw [hmain]
  rcases h1 : list_backups env (initSt env fs0) with ⟨r1, s1⟩
  have ht1 : mkdirNames s1.trace = [] := by
    obtain ⟨d, hd, hmk⟩ := list_backups_trace env (initSt env fs0)
    rw [h1] at hd
    have hd' : s1.trace = (initSt env fs0).trace ++ d := hd
    rw [hd']
    simp [initSt, hmk]
  cases r1 with
  | error e =>
    left
    simpa using ht1
  | ok v1 =>
  simp only [andThen_ok]
  rcases h2 : maybe_delete_oldest s1 with ⟨r2, s2⟩
  have ht2 : mkdirNames s2.trace = [] := by
    obtain ⟨d, hd, hmk⟩ := maybe_delete_oldest_trace s1
    rw [h2] at hd
    have hd' : s2.trace = s1.trace ++ d := hd
    rw [hd']
    simp [ht1, hmk]
  cases r2 with
  | error e =>
    left
    simpa using ht2
  | ok v2 =>
  simp only [andThen_ok]
  rcases h3 : check_today_exists env s2 with ⟨r3, s3⟩
  have ht3 : mkdirNames s3.trace = [] := by
    obtain ⟨d, hd, hmk⟩ := check_today_exists_trace env s2
    rw [h3] at hd
    have hd' : s3.trace = s2.trace ++ d := hd
    rw [hd']
    simp [ht2, hmk]
  cases r3 with
  | error e =>
    left
    simpa using ht3
  | ok dp =>
  simp only [andThen_ok]
  have hdp1 : dp.1 = strftimeYmd env.date := check_today_exists_fst h3
  by_cases hdp : dp.2
  swap
  · left
    simp only [Bool.not_eq_true] at hdp
    simp [hdp, ht3]
  simp only [hdp, Bool.not_true, Bool.false_eq_true, if_false]
  rcases hstdin : s3.stdin with _ | ⟨ans, rest⟩
  · left
    have : pyInput ("Proceed with backup? [Y/n] ") s3 =
        (.error .eofError,
          { s3 with trace := s3.trace ++ [Ev.prompt ("Proceed with backup? [Y/n] ")] }) := by
      simp [pyInput, hstdin]
    rw [this, andThen_error]
    simpa using ht3
  have hpy : pyInput ("Proceed with backup? [Y/n] ") s3 =
      (.ok ans,
        { s3 with
          stdin := rest,
          trace := s3.trace ++ [Ev.prompt ("Proceed with backup? [Y/n] ")] }) := by
    simp [pyInput, hstdin]
  rw [hpy, andThen_ok]
  by_cases hn : stripLower ans = "n"
  · left
    simp [hn, ht3]
  simp only [hn, if_false]
  obtain ⟨d, hd, hmk⟩ := stopBackupStart_trace env dp.1
    { s3 with
      stdin := rest,
      trace := s3.trace ++ [Ev.prompt ("Proceed with backup? [Y/n] ")] }
  rcases hbb : stopBackupStart env dp.1
      { s3 with
        stdin := rest,
        trace := s3.trace ++ [Ev.prompt ("Proceed with backup? [Y/n] ")] }
    with ⟨rb, sb⟩
  rw [hbb] at hd
  have htb : mkdirNames sb.trace = mkdirNames d := by
    have hd' : sb.trace =
        ((s3.trace ++ [Ev.prompt ("Proceed with backup? [Y/n] ")]) ++
          (Ev.stopContainers :: d)) := hd
    rw [hd']
    simp [ht3]
  have hout : mkdirNames sb.trace = [] ∨ mkdirNames sb.trace = [strftimeYmd env.date] := by
    rw [htb, ← hdp1]
    exact hmk
  cases rb with
  | error e =>
    simpa using hout
  | ok u =>
  simp only [andThen_ok]
  rcases hss : show_backup_stats env dp.1 sb with ⟨rs, ss⟩
  have hts : mkdirNames ss.trace = mkdirNames sb.trace := by
    have h := show_backup_stats_trace env dp.1 sb
    rw [hss] at h
    have h' : ss.trace = sb.trace ++ [Ev.duCall dp.1] := h
    rw [h']
    simp
  cases rs with
  | error e2 =>
    rw [show (andThen ((Except.error e2 : Except Exc Unit), ss)
        (fun _ s => ((.ok 0 : Except Exc Nat), s))).2.trace = ss.trace from rfl]
    rw [hts]
    exact hout
  | ok u2 =>
    rw [show (andThen ((Except.ok u2 : Except Exc Unit), ss)
        (fun _ s => ((.ok 0 : Except Exc Nat), s))).2.trace = ss.trace from rfl]
    rw [hts]
    exact hout

end ImmichBackup
